import Mathlib

/-!
Shallow embedding of the rust-sam-app Item pipeline: the shared data model
(`shared/src/models.rs`), the DynamoDB store adapter
(`shared/src/repository.rs`), the API request handler
(`api-handler/src/main.rs`) and the SQS event consumer
(`event-processor/src/main.rs`).

External collaborators are modelled explicitly:
* the DynamoDB table is a key-value store from item id to an attribute map
  of string-typed values (only `AttributeValue::S` is ever written);
* the SQS queue is the list of message bodies handed to `send_message`,
  and a fault flag says whether the send call succeeds;
* chrono timestamps are abstract instants (`Nat`) with an injective
  rendering standing in for `to_rfc3339` and a partial inverse standing in
  for `parse_from_rfc3339` (parse failure is representable);
* serde_json's text-level lexer is external, so a request or message body
  is either a well-formed JSON value or malformed raw text; the derived
  (de)serialization of the model structs is embedded field by field.
-/

/-- Models chrono `DateTime<Utc>` as an abstract instant. -/
abbrev Timestamp := Nat

/-- Models `DateTime::to_rfc3339`: an injective rendering of an instant
into a string.  The concrete digits of the rendering are external to the
repository, so the codec is modelled abstractly: it only matters that it
is injective and that `parse_from_rfc3339` inverts it. -/
def toRfc3339 (t : Timestamp) : String :=
  String.mk ('T' :: List.replicate t 'x')

/-- Models `chrono::DateTime::parse_from_rfc3339` composed with
`with_timezone(&Utc)`: the partial inverse of `toRfc3339`, failing on any
string outside its image. -/
def parseRfc3339 (s : String) : Option Timestamp :=
  match s.data with
  | 'T' :: rest => if rest.all (· == 'x') then some rest.length else none
  | _ => none

/-- Rust `String::len`: the UTF-8 byte length of the string. -/
def rustLen (s : String) : Nat := (s.data.map Char.utf8Size).sum

/-- Rust `str::starts_with` for a string pattern. -/
def rustStartsWith (s p : String) : Bool := p.data.isPrefixOf s.data

/-- A JSON value, as produced by serde_json's lexer. -/
inductive Json where
  | null : Json
  | bool (b : Bool) : Json
  | num (n : Int) : Json
  | str (s : String) : Json
  | arr (elems : List Json) : Json
  | obj (fields : List (String × Json)) : Json

/-- `shared::models::Item` (models.rs:10-33). -/
structure Item where
  id : String
  name : String
  description : Option String
  created_at : Timestamp
  classification : String
deriving DecidableEq, Repr

/-- Derived `Serialize` for `Item`: fields in declaration order;
`description: Option<String>` with no serde attribute serializes `None`
as JSON `null`; `created_at` serializes through the RFC 3339 rendering. -/
def itemToJson (it : Item) : Json :=
  .obj [("id", .str it.id),
        ("name", .str it.name),
        ("description", match it.description with
                        | some d => .str d
                        | none => .null),
        ("created_at", .str (toRfc3339 it.created_at)),
        ("classification", .str it.classification)]

/-- Derived `Deserialize` for `Item` (models.rs:14-48): `id` defaults to a
fresh UUID (`generate_id`), `created_at` defaults to now
(`default_created_at`), `classification` defaults to "INTERNAL"
(`default_classification`); `name` is required; `description` is an
`Option` so a missing field or `null` yields `None`.  The fresh UUID and
the current time are external inputs and passed as arguments. -/
def itemFromJson (freshId : String) (now : Timestamp) : Json → Except String Item
  | .obj fs => do
    let id ← match List.lookup "id" fs with
      | none => Except.ok freshId
      | some (.str s) => Except.ok s
      | some _ => Except.error "invalid type for field id"
    let name ← match List.lookup "name" fs with
      | none => Except.error "missing field name"
      | some (.str s) => Except.ok s
      | some _ => Except.error "invalid type for field name"
    let description ← match List.lookup "description" fs with
      | none => Except.ok none
      | some .null => Except.ok none
      | some (.str s) => Except.ok (some s)
      | some _ => Except.error "invalid type for field description"
    let created_at ← match List.lookup "created_at" fs with
      | none => Except.ok now
      | some (.str s) =>
          match parseRfc3339 s with
          | some t => Except.ok t
          | none => Except.error "invalid rfc3339 timestamp for field created_at"
      | some _ => Except.error "invalid type for field created_at"
    let classification ← match List.lookup "classification" fs with
      | none => Except.ok "INTERNAL"
      | some (.str s) => Except.ok s
      | some _ => Except.error "invalid type for field classification"
    Except.ok ⟨id, name, description, created_at, classification⟩
  | _ => .error "expected object for Item"

/-- `shared::models::ItemEventType` (models.rs:89-98). -/
inductive ItemEventType where
  | Created : ItemEventType
  | Updated : ItemEventType
  | Deleted : ItemEventType
deriving DecidableEq, Repr

/-- `shared::models::ItemEvent` (models.rs:76-85). -/
structure ItemEvent where
  event_type : ItemEventType
  item : Item
  timestamp : Timestamp
deriving DecidableEq, Repr

/-- Derived `Serialize` for the unit-variant enum `ItemEventType`. -/
def eventTypeToJson : ItemEventType → Json
  | .Created => .str "Created"
  | .Updated => .str "Updated"
  | .Deleted => .str "Deleted"

/-- Derived `Deserialize` for `ItemEventType`. -/
def eventTypeFromJson : Json → Except String ItemEventType
  | .str "Created" => .ok .Created
  | .str "Updated" => .ok .Updated
  | .str "Deleted" => .ok .Deleted
  | _ => .error "invalid ItemEventType"

/-- Derived `Serialize` for `ItemEvent`. -/
def itemEventToJson (e : ItemEvent) : Json :=
  .obj [("event_type", eventTypeToJson e.event_type),
        ("item", itemToJson e.item),
        ("timestamp", .str (toRfc3339 e.timestamp))]

/-- Derived `Deserialize` for `ItemEvent`: all three fields are required
(no serde defaults on this struct); the nested `Item` still applies its
own field defaults. -/
def itemEventFromJson (freshId : String) (now : Timestamp) : Json → Except String ItemEvent
  | .obj fs => do
    let et ← match List.lookup "event_type" fs with
      | none => Except.error "missing field event_type"
      | some v => eventTypeFromJson v
    let it ← match List.lookup "item" fs with
      | none => Except.error "missing field item"
      | some v => itemFromJson freshId now v
    let ts ← match List.lookup "timestamp" fs with
      | none => Except.error "missing field timestamp"
      | some (.str s) =>
          match parseRfc3339 s with
          | some t => Except.ok t
          | none => Except.error "invalid rfc3339 timestamp for field timestamp"
      | some _ => Except.error "invalid type for field timestamp"
    Except.ok ⟨et, it, ts⟩
  | _ => .error "expected object for ItemEvent"

/-- `shared::error::AppError` (error.rs:3-22). -/
inductive AppError where
  | DynamoDb (msg : String) : AppError
  | Sqs (msg : String) : AppError
  | Serialization (msg : String) : AppError
  | Validation (msg : String) : AppError
  | NotFound (msg : String) : AppError
  | Internal (msg : String) : AppError
deriving DecidableEq, Repr

/-- The `Display` implementation thiserror derives from the `#[error]`
attributes on `AppError` (error.rs:5-21): each variant's message is
prefixed by the format string of its attribute. -/
def AppError.display : AppError → String
  | .DynamoDb m => "DynamoDB error: " ++ m
  | .Sqs m => "SQS error: " ++ m
  | .Serialization m => "Serialization error: " ++ m
  | .Validation m => "Validation error: " ++ m
  | .NotFound m => "Not found: " ++ m
  | .Internal m => "Internal error: " ++ m

/-- The final `match item.classification.as_str()` of `validate_item`
(api-handler/src/main.rs:247-250), split out only because Lean's
`if`-chain syntax cannot fall through the description block. -/
def validateClassification (item : Item) : Except AppError Unit :=
  if item.classification == "PUBLIC" || item.classification == "INTERNAL"
      || item.classification == "CONFIDENTIAL"
      || item.classification == "RESTRICTED" then
    .ok ()
  else
    .error (.Validation "Invalid classification level")

/-- `api-handler::validate_item` (api-handler/src/main.rs:218-253).
Lengths are Rust `String::len`, i.e. UTF-8 byte counts; `contains` is the
char-pattern `str::contains`; `is_empty` is modelled as the character list
being empty (equivalent to the byte length being zero). -/
def validate_item (item : Item) : Except AppError Unit :=
  if item.name.data.isEmpty then
    .error (.Validation "Item name cannot be empty")
  else if rustLen item.name > 100 then
    .error (.Validation "Item name too long (max 100 characters)")
  else if item.name.data.contains '<' || item.name.data.contains '>'
      || item.name.data.contains '&' then
    .error (.Validation "Item name contains invalid characters")
  else match item.description with
  | some desc =>
    if rustLen desc > 1000 then
      .error (.Validation "Description too long (max 1000 characters)")
    else if desc.data.contains '<' || desc.data.contains '>'
        || desc.data.contains '&' then
      .error (.Validation "Description contains invalid characters")
    else validateClassification item
  | none => validateClassification item

/-- Takes the characters occupying exactly `n` leading UTF-8 bytes of the
list, or `none` when byte index `n` falls inside a character.  This is the
boundary check Rust performs for the byte-range slice `&data[0..4]`
(api-handler/src/main.rs:270): slicing at a non-boundary index panics. -/
def takeUtf8Bytes : Nat → List Char → Option (List Char)
  | 0, _ => some []
  | _ + 1, [] => none
  | n + 1, c :: cs =>
      if c.utf8Size ≤ n + 1 then
        (takeUtf8Bytes (n + 1 - c.utf8Size) cs).map (c :: ·)
      else
        none

/-- `api-handler::mask_sensitive_data` (api-handler/src/main.rs:266-273).
`data.len()` is the byte length; `&data[0..4]` slices the first four
bytes and panics (modelled as `none`) when byte 4 is not a character
boundary; `"*".repeat(len - 4)` appends one asterisk per remaining byte. -/
def mask_sensitive_data (data : String) : Option String :=
  if rustLen data ≤ 4 then
    some "****"
  else
    match takeUtf8Bytes 4 data.data with
    | some visible =>
        some (String.mk visible ++ String.mk (List.replicate (rustLen data - 4) '*'))
    | none => none

/-- `shared::models::AuditRecord` (models.rs:105-135).  The serialized
state snapshots are kept in parsed JSON form (serde_json::to_string is
injective up to rendering). -/
structure AuditRecord where
  event_id : String
  user_id : String
  action : String
  resource_id : String
  resource_type : String
  timestamp : Timestamp
  previous_state : Option Json
  new_state : Option Json
  request_id : String
  hash : Option String

/-- The external `md5` crate's digest of the serialized item
(api-handler/src/main.rs:306).  The digest function is external to the
repository and no claim depends on its value, so it is modelled as an
uninterpreted constant digest. -/
def md5Hex (_serialized : Json) : String := "d41d8cd98f00b204e9800998ecf8427e"

/-- `api-handler::create_audit_record` (api-handler/src/main.rs:289-320).
The generated `event_id` UUID and the `Utc::now()` timestamp are external
inputs, passed in as `freshId` and `now`. -/
def create_audit_record (freshId : String) (now : Timestamp) (action : String)
    (item : Item) (previous_state : Option Json) (request_id : String) : AuditRecord :=
  { event_id := freshId
    user_id := "system"
    action := action
    resource_id := item.id
    resource_type := "item"
    timestamp := now
    previous_state := previous_state
    new_state := if action != "delete" then some (itemToJson item) else none
    request_id := request_id
    hash := some (md5Hex (itemToJson item)) }

/-- A stored DynamoDB record: attribute name to the contents of an
`AttributeValue::S` (the only attribute type this code writes). -/
abbrev Record := List (String × String)

/-- The DynamoDB table: item id to stored record. -/
abbrev Store := List (String × Record)

/-- DynamoDB `PutItem` on the table keyed by `id`: replaces any existing
record under the same key. -/
def storePut (id : String) (rec : Record) (s : Store) : Store :=
  (id, rec) :: s.filter (fun p => p.1 != id)

/-- DynamoDB `DeleteItem`: removes the key if present; the call succeeds
whether or not the key existed. -/
def storeDel (id : String) (s : Store) : Store :=
  s.filter (fun p => p.1 != id)

/-- The attribute map `create_item` builds (repository.rs:23-32): `id`,
`name`, `description` only when present, `created_at` as the RFC 3339
rendering. -/
def itemAttributes (item : Item) : Record :=
  [("id", item.id), ("name", item.name)]
  ++ (match item.description with
      | some desc => [("description", desc)]
      | none => [])
  ++ [("created_at", toRfc3339 item.created_at)]

/-- `DynamoDbRepository::create_item` (repository.rs:22-44).  The AWS
transport is external and modelled as reachable; the adapter itself never
produces an error, and a transport failure would be the `Err` case. -/
def DynamoDbRepository.create_item (item : Item) (s : Store) : Except String Store :=
  .ok (storePut item.id (itemAttributes item) s)

/-- `DynamoDbRepository::get_item` (repository.rs:46-76).  A missing key
yields `Ok(None)`.  Present records are rebuilt leniently: absent or
non-string `id`/`name` fall back to `""` (`unwrap_or_default`), absent
`description` to `None`, and an absent or unparsable `created_at` to the
current time (`unwrap_or_else(Utc::now)`), passed in as `now`.  The
source's struct literal (repository.rs:67-72) sets no `classification`
field at all — it does not even compile against the five-field `Item` of
models.rs — so the missing field is modelled by the same empty-string
fallback the other absent fields get. -/
def DynamoDbRepository.get_item (now : Timestamp) (s : Store) (id : String) :
    Except String (Option Item) :=
  match List.lookup id s with
  | some rec =>
      .ok (some
        { id := (List.lookup "id" rec).getD ""
          name := (List.lookup "name" rec).getD ""
          description := List.lookup "description" rec
          created_at := ((List.lookup "created_at" rec).bind parseRfc3339).getD now
          classification := "" })
  | none => .ok none

/-- `DynamoDbRepository::list_items` (repository.rs:78-112): full scan;
records missing `id` or `name` are silently skipped; `classification` is
absent from the source's struct literal here as well. -/
def DynamoDbRepository.list_items (now : Timestamp) (s : Store) :
    Except String (List Item) :=
  .ok (s.filterMap (fun p =>
    match List.lookup "id" p.2, List.lookup "name" p.2 with
    | some id, some name =>
        some { id := id
               name := name
               description := List.lookup "description" p.2
               created_at := ((List.lookup "created_at" p.2).bind parseRfc3339).getD now
               classification := "" }
    | _, _ => none))

/-- `DynamoDbRepository::delete_item` (repository.rs:114-125): an
unconditional `DeleteItem` call, no existence check. -/
def DynamoDbRepository.delete_item (id : String) (s : Store) : Except String Store :=
  .ok (storeDel id s)

/-- An HTTP response as built by the handlers: status, optional
`Content-Type` header, and a body kept in parsed JSON form (`none` models
`Body::Empty`). -/
structure HttpResponse where
  status : Nat
  contentType : Option String
  body : Option Json

/-- `api-handler::error_response` (api-handler/src/main.rs:476-494):
serializes `ErrorResponse { message }` and never fails (the
`unwrap_or_else` fallbacks are unreachable for this body). -/
def error_response (message : String) (status_code : Nat) : HttpResponse :=
  { status := status_code
    contentType := some "application/json"
    body := some (.obj [("message", .str message)]) }

/-- The external inputs of one invocation: the fresh UUID the generators
produce, the current time, and the outcome of the SQS `send_message` call
(`none` = success, `some msg` = the failure whose display string the
handler wraps in `AppError::Sqs`). -/
structure Env where
  freshId : String
  now : Timestamp
  sqsResult : Option String

/-- The externally visible state an invocation touches: the DynamoDB
table and the bodies handed to the SQS queue (kept in parsed JSON form). -/
structure World where
  store : Store
  queue : List Json

/-- `api-handler::get_items` (api-handler/src/main.rs:146-165). -/
def ApiHandler.get_items (env : Env) (w : World) :
    Except AppError HttpResponse × World :=
  match DynamoDbRepository.list_items env.now w.store with
  | .error e => (.error (.DynamoDb e), w)
  | .ok items =>
      (.ok { status := 200
             contentType := some "application/json"
             body := some (.arr (items.map itemToJson)) }, w)

/-- `api-handler::get_item` (api-handler/src/main.rs:179-203). -/
def ApiHandler.get_item (env : Env) (id : String) (w : World) :
    Except AppError HttpResponse × World :=
  match DynamoDbRepository.get_item env.now w.store id with
  | .error e => (.error (.DynamoDb e), w)
  | .ok (some item) =>
      (.ok { status := 200
             contentType := some "application/json"
             body := some (itemToJson item) }, w)
  | .ok none => (.error (.NotFound ("Item with ID " ++ id ++ " not found")), w)

/-- `api-handler::create_item` (api-handler/src/main.rs:336-394):
validate, write to the store, build the audit record (logged only),
publish a `Created` event, answer 201 with the item.  A publish failure
surfaces as `AppError::Sqs` after the store write has already happened. -/
def ApiHandler.create_item (env : Env) (item : Item) (w : World) :
    Except AppError HttpResponse × World :=
  match validate_item item with
  | .error e => (.error e, w)
  | .ok () =>
  match DynamoDbRepository.create_item item w.store with
  | .error e => (.error (.DynamoDb e), w)
  | .ok store' =>
      let _audit := create_audit_record env.freshId env.now "create" item none "request-id"
      let event : ItemEvent := ⟨.Created, item, env.now⟩
      let event_json := itemEventToJson event
      match env.sqsResult with
      | some failure => (.error (.Sqs failure), { store := store', queue := w.queue })
      | none =>
          (.ok { status := 201
                 contentType := some "application/json"
                 body := some (itemToJson item) },
           { store := store', queue := w.queue ++ [event_json] })

/-- `api-handler::delete_item` (api-handler/src/main.rs:410-464): look the
item up (NotFound aborts before any mutation), build the audit record,
delete from the store, publish a `Deleted` event, answer 204 with an
empty body and no `Content-Type` header. -/
def ApiHandler.delete_item (env : Env) (id : String) (w : World) :
    Except AppError HttpResponse × World :=
  match DynamoDbRepository.get_item env.now w.store id with
  | .error e => (.error (.DynamoDb e), w)
  | .ok none => (.error (.NotFound ("Item with ID " ++ id ++ " not found")), w)
  | .ok (some item) =>
      let _audit := create_audit_record env.freshId env.now "delete" item
        (some (itemToJson item)) "request-id"
      match DynamoDbRepository.delete_item id w.store with
      | .error e => (.error (.DynamoDb e), w)
      | .ok store' =>
          let event : ItemEvent := ⟨.Deleted, item, env.now⟩
          let event_json := itemEventToJson event
          match env.sqsResult with
          | some failure => (.error (.Sqs failure), { store := store', queue := w.queue })
          | none =>
              (.ok { status := 204, contentType := none, body := none },
               { store := store', queue := w.queue ++ [event_json] })

/-- The text of a request or queue message body before serde_json parses
it: serde_json's lexer is external, so the body is either a well-formed
JSON value or malformed raw text on which `from_str`/`from_slice` fails
with a syntax error. -/
inductive JsonText where
  | wellFormed (j : Json) : JsonText
  | malformed (raw : String) : JsonText

/-- `lambda_http::Body` as matched at api-handler/src/main.rs:102-106. -/
inductive ReqBody where
  | text (content : JsonText) : ReqBody
  | binary (content : JsonText) : ReqBody
  | empty : ReqBody

/-- An incoming API Gateway request. -/
structure Request where
  method : String
  path : String
  body : ReqBody

/-- Rust `str::trim_start_matches("/items/")`: repeatedly strips the
prefix for as long as it matches. -/
def trimItemsPath : List Char → List Char
  | '/' :: 'i' :: 't' :: 'e' :: 'm' :: 's' :: '/' :: rest => trimItemsPath rest
  | l => l

/-- `serde_json::from_str::<Item>` / `from_slice::<Item>` on a request
body (api-handler/src/main.rs:103-104). -/
def parseItemBody (env : Env) : JsonText → Except String Item
  | .malformed raw => .error ("invalid JSON: " ++ raw)
  | .wellFormed j => itemFromJson env.freshId env.now j

/-- The `result` value of `handle_request` (api-handler/src/main.rs:89-118):
the route match.  The outer `Except String` is the handler's
`Result<_, lambda_http::Error>`: its error case is reachable only through
the `?` on the POST body parse (main.rs:103-104), which bypasses the
`AppError`-to-status mapping below. -/
def route_result (env : Env) (req : Request) (w : World) :
    Except String (Except AppError HttpResponse × World) :=
  if req.method == "GET" && req.path == "/items" then
    .ok (ApiHandler.get_items env w)
  else if req.method == "GET" && rustStartsWith req.path "/items/" then
    .ok (ApiHandler.get_item env (String.mk (trimItemsPath req.path.data)) w)
  else if req.method == "POST" && req.path == "/items" then
    match req.body with
    | .text content | .binary content =>
        match parseItemBody env content with
        | .ok item => .ok (ApiHandler.create_item env item w)
        | .error e => .error e
    | .empty => .ok (.ok (error_response "Invalid request body" 400), w)
  else if req.method == "DELETE" && rustStartsWith req.path "/items/" then
    .ok (ApiHandler.delete_item env (String.mk (trimItemsPath req.path.data)) w)
  else
    .ok (.ok (error_response "Not found" 404), w)

/-- `api-handler::handle_request` (api-handler/src/main.rs:78-133): route,
then map a handler `AppError` to a status code — `NotFound → 404`,
`Validation → 400`, everything else `→ 500` — and to a JSON error body
built from the error's display string. -/
def handle_request (env : Env) (req : Request) (w : World) :
    Except String (HttpResponse × World) :=
  match route_result env req w with
  | .error e => .error e
  | .ok (.ok response, w') => .ok (response, w')
  | .ok (.error err, w') =>
      let status_code : Nat :=
        match err with
        | .NotFound _ => 404
        | .Validation _ => 400
        | _ => 500
      .ok (error_response err.display status_code, w')

/-- `aws_lambda_events::sqs::SqsMessage`, the two fields the consumer
reads (event-processor/src/main.rs:92-97). -/
structure SqsMessage where
  message_id : Option String
  body : Option JsonText

/-- `event-processor::process_sqs_message` (event-processor/src/main.rs:87-127):
an absent body or a body that does not deserialize as `ItemEvent` is a
terminal error for the message; the per-type dispatch only logs and
sleeps, so a deserialized event always succeeds.  Both error paths pass
through `?` into `lambda_runtime::Error`, whose message for an `AppError`
is its display string (error.rs:24-28). -/
def process_sqs_message (env : Env) (message : SqsMessage) : Except String Unit :=
  match message.body with
  | none => .error (AppError.display (.Internal "SQS message has no body"))
  | some content =>
      match (match content with
             | .malformed raw => Except.error ("invalid JSON: " ++ raw)
             | .wellFormed j => itemEventFromJson env.freshId env.now j) with
      | .error e => .error e
      | .ok item_event =>
          match item_event.event_type with
          | .Created => .ok ()
          | .Updated => .ok ()
          | .Deleted => .ok ()

/-- `event-processor::handle_event` (event-processor/src/main.rs:58-72):
the sequential `for` loop over the batch with `?` on each message — the
first failure aborts the whole batch. -/
def handle_event (env : Env) : List SqsMessage → Except String Unit
  | [] => .ok ()
  | message :: rest =>
      match process_sqs_message env message with
      | .error e => .error e
      | .ok () => handle_event env rest

/-! Concrete fixtures used by the claim witnesses and counterexamples. -/

/-- An invocation whose SQS send succeeds. -/
def envNoFail : Env := { freshId := "uuid-0", now := 5, sqsResult := none }

/-- An invocation whose SQS send fails with a transport error. -/
def envSqsFail : Env := { freshId := "uuid-0", now := 5, sqsResult := some "SendMessageError" }

/-- An empty table and an empty queue. -/
def emptyWorld : World := { store := [], queue := [] }

/-- A valid item carrying a non-default classification. -/
def itemPublicC1 : Item :=
  { id := "i1", name := "n", description := none, created_at := 3,
    classification := "PUBLIC" }

/-- An item whose name is 100 characters but 200 UTF-8 bytes. -/
def itemTwoByteName : Item :=
  { id := "i1", name := String.mk (List.replicate 100 'é'), description := none,
    created_at := 0, classification := "INTERNAL" }

/-- An item whose name is 100 characters and 100 UTF-8 bytes. -/
def itemAsciiName : Item :=
  { id := "i1", name := String.mk (List.replicate 100 'a'), description := none,
    created_at := 0, classification := "INTERNAL" }

/-- The item `{"name": "Widget"}` deserializes to under `envNoFail` /
`envSqsFail`: generated id, current time, default classification. -/
def widgetItem : Item :=
  { id := "uuid-0", name := "Widget", description := none, created_at := 5,
    classification := "INTERNAL" }

/-- A POST /items request with body `{"name": "Widget"}`. -/
def postWidgetReq : Request :=
  ⟨"POST", "/items", .text (.wellFormed (.obj [("name", .str "Widget")]))⟩

/-- An SQS message whose body is a well-formed Created event. -/
def sqsOkMessage : SqsMessage :=
  { message_id := some "m1",
    body := some (.wellFormed (itemEventToJson ⟨.Created, widgetItem, 5⟩)) }

/-- An SQS message with no body. -/
def sqsNoBodyMessage : SqsMessage := { message_id := some "m2", body := none }

/-- The name rules of `validate_item` (rules 1-3) all pass. -/
def nameRulesPass (it : Item) : Prop :=
  it.name.data ≠ [] ∧ rustLen it.name ≤ 100 ∧
  ¬('<' ∈ it.name.data ∨ '>' ∈ it.name.data ∨ '&' ∈ it.name.data)

/-- The description rules of `validate_item` (rule 4) pass. -/
def descRulesPass (it : Item) : Prop :=
  ∀ d, it.description = some d → rustLen d ≤ 1000 ∧
    ¬('<' ∈ d.data ∨ '>' ∈ d.data ∨ '&' ∈ d.data)

/-! Helper lemmas shared by the claim theorems. -/

theorem parseRfc3339_toRfc3339 (t : Timestamp) :
    parseRfc3339 (toRfc3339 t) = some t := by
  simp [parseRfc3339, toRfc3339, List.all_eq_true]

theorem lookup_storeDel (id : String) (s : Store) :
    List.lookup id (storeDel id s) = none := by
  induction s with
  | nil => rfl
  | cons p rest ih =>
    obtain ⟨k, v⟩ := p
    by_cases h : k = id
    · simpa [storeDel, List.filter_cons, h] using ih
    · have hb : (k != id) = true := bne_iff_ne.mpr h
      simp only [storeDel, List.filter_cons, hb, if_true]
      rw [List.lookup_cons]
      simp only [beq_false_of_ne (Ne.symm h)]
      simpa [storeDel] using ih

theorem storeDel_storeDel (id : String) (s : Store) :
    storeDel id (storeDel id s) = storeDel id s := by
  simp [storeDel, List.filter_filter]

theorem takeUtf8Bytes_sum : ∀ (l : List Char) (n : Nat) (v : List Char),
    takeUtf8Bytes n l = some v → (v.map Char.utf8Size).sum = n := by
  intro l
  induction l with
  | nil =>
      intro n v h
      cases n with
      | zero =>
          simp only [takeUtf8Bytes, Option.some.injEq] at h
          subst h; rfl
      | succ m => exact Option.noConfusion h
  | cons c cs ih =>
      intro n v h
      cases n with
      | zero =>
          simp only [takeUtf8Bytes, Option.some.injEq] at h
          subst h; rfl
      | succ m =>
          simp only [takeUtf8Bytes] at h
          split at h
          · cases hv : takeUtf8Bytes (m + 1 - c.utf8Size) cs with
            | none => rw [hv] at h; exact Option.noConfusion h
            | some w =>
                rw [hv] at h
                simp only [Option.map_some', Option.some.injEq] at h
                subst h
                have hw := ih _ _ hv
                simp only [List.map_cons, List.sum_cons, hw]
                omega
          · exact Option.noConfusion h

theorem takeUtf8Bytes_prefix : ∀ (l : List Char) (n : Nat) (v : List Char),
    takeUtf8Bytes n l = some v → v <+: l := by
  intro l
  induction l with
  | nil =>
      intro n v h
      cases n with
      | zero =>
          simp only [takeUtf8Bytes, Option.some.injEq] at h
          subst h; exact List.nil_prefix
      | succ m => exact Option.noConfusion h
  | cons c cs ih =>
      intro n v h
      cases n with
      | zero =>
          simp only [takeUtf8Bytes, Option.some.injEq] at h
          subst h; exact List.nil_prefix
      | succ m =>
          simp only [takeUtf8Bytes] at h
          split at h
          · cases hv : takeUtf8Bytes (m + 1 - c.utf8Size) cs with
            | none => rw [hv] at h; exact Option.noConfusion h
            | some w =>
                rw [hv] at h
                simp only [Option.map_some', Option.some.injEq] at h
                subst h
                obtain ⟨t, ht⟩ := ih _ _ hv
                exact ⟨t, by rw [List.cons_append, ht]⟩
          · exact Option.noConfusion h

/-! Claim theorems. -/

/-- C1: the claim says a created item read back equals the input on every
supplied field, including `classification`.  The store adapter neither
writes `classification` (`create_item` builds no such attribute,
repository.rs:23-32) nor reads it back (`get_item`'s struct literal sets
no such field, repository.rs:67-72, which does not even compile against
the five-field `Item` of models.rs), so a valid item stored with
classification "PUBLIC" comes back with the fallback default instead:
`id`, `name`, `description` and `created_at` round-trip exactly, the
supplied `classification` is lost.  This theorem evaluates the code at
the failing input. -/
theorem c1_create_get_drops_classification :
    validate_item itemPublicC1 = .ok () ∧
    itemPublicC1.classification = "PUBLIC" ∧
    (DynamoDbRepository.create_item itemPublicC1 []).bind
        (fun s => DynamoDbRepository.get_item 5 s "i1") =
      .ok (some { id := "i1", name := "n", description := none, created_at := 3,
                  classification := "" }) ∧
    ("" : String) ≠ "PUBLIC" :=
  ⟨rfl, rfl, rfl, by decide⟩

/-- C2 counterexample: a POST /items whose text body is not valid JSON
does not produce a 400 response — it produces no response at all.  The
`?` on `serde_json::from_str` (api-handler/src/main.rs:103) propagates
the parse error into `handle_request`'s outer `Result`, bypassing the
error-to-status mapping, so the invocation fails with an unhandled
error. -/
theorem c2_malformed_body_counterexample :
    handle_request envNoFail ⟨"POST", "/items", .text (.malformed "not json")⟩ emptyWorld =
      .error "invalid JSON: not json" ∧
    ∃ e, handle_request envNoFail ⟨"POST", "/items", .text (.malformed "not json")⟩
        emptyWorld = .error e :=
  ⟨rfl, "invalid JSON: not json", rfl⟩

/-- C2 amended: a POST /items body that does not deserialize as `Item` —
malformed JSON text (or bytes), or well-formed JSON rejected by the
`Item` deserializer — makes `handle_request` return `Err` to the Lambda
runtime: an unhandled invocation error, not a 400 and not a JSON error
body (the catch-all mapping would give such an error 500, not 400, even
if it were reached).  Only a missing (`Body::Empty`) body yields a
crafted 400 JSON error response. -/
theorem c2_invalid_post_body_amended (env : Env) (w : World) :
    (∀ raw, handle_request env ⟨"POST", "/items", .text (.malformed raw)⟩ w =
        .error ("invalid JSON: " ++ raw)) ∧
    (∀ raw, handle_request env ⟨"POST", "/items", .binary (.malformed raw)⟩ w =
        .error ("invalid JSON: " ++ raw)) ∧
    (∀ j e, itemFromJson env.freshId env.now j = .error e →
      handle_request env ⟨"POST", "/items", .text (.wellFormed j)⟩ w = .error e) ∧
    (handle_request env ⟨"POST", "/items", .empty⟩ w =
      .ok (error_response "Invalid request body" 400, w)) := by
  refine ⟨fun raw => rfl, fun raw => rfl, ?_, rfl⟩
  intro j e hj
  unfold handle_request route_result
  dsimp only
  rw [show (("POST" : String) == "GET") = false from rfl,
      show (("POST" : String) == "POST") = true from rfl]
  simp only [Bool.false_and, Bool.true_and, if_false, if_true]
  simp [parseItemBody, hj]

/-- C2 witness: the amended claim at the concrete body `{}` (well-formed
JSON that is not an `Item`): the handler surfaces the deserializer's
error unhandled. -/
theorem c2_invalid_post_body_witness :
    handle_request envNoFail ⟨"POST", "/items", .text (.wellFormed (.obj []))⟩ emptyWorld =
      .error "missing field name" :=
  (c2_invalid_post_body_amended envNoFail emptyWorld).2.2.1 (.obj []) "missing field name" rfl

/-- C3 counterexample: a name of exactly 100 characters does not always
pass the length rule — `item.name.len()` counts UTF-8 bytes, so 100
two-byte characters measure 200 and are rejected as too long. -/
theorem c3_hundred_char_name_counterexample :
    itemTwoByteName.name.length = 100 ∧
    validate_item itemTwoByteName =
      .error (.Validation "Item name too long (max 100 characters)") :=
  ⟨rfl, rfl⟩

/-- C3 amended: `validate_item` checks its rules in the stated order with
the first failure winning — (1) empty name, (2) name over 100 UTF-8
bytes, (3) name containing `<` `>` `&`, (4) description over 1000 UTF-8
bytes or containing `<` `>` `&` when present, (5) classification outside
the four levels — and a name of exactly 100 UTF-8 bytes (in particular
any 100-character ASCII name) passes the length rule; a 100-character
name with multi-byte characters can exceed 100 bytes and be rejected. -/
theorem c3_validate_order_amended (it : Item) :
    (validate_item it = .error (.Validation "Item name cannot be empty") ↔
      it.name.data = []) ∧
    (validate_item it = .error (.Validation "Item name too long (max 100 characters)") ↔
      it.name.data ≠ [] ∧ rustLen it.name > 100) ∧
    (validate_item it = .error (.Validation "Item name contains invalid characters") ↔
      it.name.data ≠ [] ∧ rustLen it.name ≤ 100 ∧
      ('<' ∈ it.name.data ∨ '>' ∈ it.name.data ∨ '&' ∈ it.name.data)) ∧
    (validate_item it = .error (.Validation "Description too long (max 1000 characters)") ↔
      nameRulesPass it ∧ ∃ d, it.description = some d ∧ rustLen d > 1000) ∧
    (validate_item it = .error (.Validation "Description contains invalid characters") ↔
      nameRulesPass it ∧ ∃ d, it.description = some d ∧ rustLen d ≤ 1000 ∧
      ('<' ∈ d.data ∨ '>' ∈ d.data ∨ '&' ∈ d.data)) ∧
    (validate_item it = .error (.Validation "Invalid classification level") ↔
      nameRulesPass it ∧ descRulesPass it ∧
      it.classification ∉ (["PUBLIC", "INTERNAL", "CONFIDENTIAL", "RESTRICTED"] : List String)) ∧
    (validate_item it = .ok () ↔
      nameRulesPass it ∧ descRulesPass it ∧
      it.classification ∈ (["PUBLIC", "INTERNAL", "CONFIDENTIAL", "RESTRICTED"] : List String)) ∧
    (rustLen it.name = 100 →
      validate_item it ≠ .error (.Validation "Item name too long (max 100 characters)")) := by
  obtain ⟨id, name, desc, ca, cl⟩ := it
  cases desc with
  | none =>
      unfold validate_item validateClassification nameRulesPass descRulesPass
      dsimp only
      split_ifs <;>
        simp_all [List.contains, List.elem_eq_mem, List.isEmpty_iff] <;>
        first | rfl | omega | decide | tauto
  | some d =>
      unfold validate_item validateClassification nameRulesPass descRulesPass
      dsimp only
      split_ifs <;>
        simp_all [List.contains, List.elem_eq_mem, List.isEmpty_iff] <;>
        first | rfl | omega | decide | tauto

/-- C3 witness: the amended claim at a concrete 100-character, 100-byte
ASCII name: the length rule does not fire. -/
theorem c3_validate_order_witness :
    rustLen itemAsciiName.name = 100 ∧
    validate_item itemAsciiName ≠
      .error (.Validation "Item name too long (max 100 characters)") :=
  ⟨rfl, (c3_validate_order_amended itemAsciiName).2.2.2.2.2.2.2 rfl⟩

/-- C4: whenever a routed handler returns an `AppError`, `handle_request`
maps it to a response — 404 for `NotFound`, 400 for `Validation`, 500 for
every other kind (`DynamoDb`, `Sqs`, `Serialization`, `Internal`) — and
every `error_response` carries the JSON body `{"message": <text>}` with
the error's display text.  The embedding of `handle_request` is a total
function, reflecting that no panicking operation is reachable on these
paths (the `unwrap_or_else` fallbacks of `error_response` cannot fire). -/
theorem c4_error_status_mapping (env : Env) (req : Request) (w w' : World) (e : AppError)
    (h : route_result env req w = .ok (.error e, w')) :
    (∀ m, e = .NotFound m →
      handle_request env req w = .ok (error_response e.display 404, w')) ∧
    (∀ m, e = .Validation m →
      handle_request env req w = .ok (error_response e.display 400, w')) ∧
    (∀ m, e = .DynamoDb m →
      handle_request env req w = .ok (error_response e.display 500, w')) ∧
    (∀ m, e = .Sqs m →
      handle_request env req w = .ok (error_response e.display 500, w')) ∧
    (∀ m, e = .Serialization m →
      handle_request env req w = .ok (error_response e.display 500, w')) ∧
    (∀ m, e = .Internal m →
      handle_request env req w = .ok (error_response e.display 500, w')) ∧
    (∀ m c, (error_response m c).status = c ∧
      (error_response m c).contentType = some "application/json" ∧
      (error_response m c).body = some (.obj [("message", .str m)])) := by
  refine ⟨?_, ?_, ?_, ?_, ?_, ?_, fun m c => ⟨rfl, rfl, rfl⟩⟩ <;>
    (intro m hm; subst hm; simp [handle_request, h])

/-- C4 witness: the mapping at a concrete request: deleting an id absent
from an empty table routes to a `NotFound` error and yields 404 with the
JSON message body. -/
theorem c4_error_status_mapping_witness :
    handle_request envNoFail ⟨"DELETE", "/items/zzz", .empty⟩ emptyWorld =
      .ok (error_response (AppError.NotFound "Item with ID zzz not found").display 404,
           emptyWorld) :=
  (c4_error_status_mapping envNoFail ⟨"DELETE", "/items/zzz", .empty⟩ emptyWorld emptyWorld
      (.NotFound "Item with ID zzz not found") rfl).1 "Item with ID zzz not found" rfl

/-- C5: store-level delete is idempotent — the adapter issues an
unconditional `DeleteItem`, which succeeds whether or not the key exists,
so calling it on the already-deleted store succeeds again and leaves it
unchanged, and a get after the delete returns `Ok(None)`. -/
theorem c5_delete_idempotent (s : Store) (id : String) (now : Timestamp) :
    DynamoDbRepository.delete_item id s = .ok (storeDel id s) ∧
    DynamoDbRepository.delete_item id (storeDel id s) = .ok (storeDel id s) ∧
    DynamoDbRepository.get_item now (storeDel id s) id = .ok none := by
  refine ⟨rfl, ?_, ?_⟩
  · simp [DynamoDbRepository.delete_item, storeDel_storeDel]
  · simp [DynamoDbRepository.get_item, lookup_storeDel]

/-- C6: `get_item` returns `Ok(None)` for a missing key rather than an
error, and never fails deserialization on a malformed stored record:
whatever the record holds, a missing `id` or `name` attribute falls back
to the empty string and a missing or unparsable `created_at` falls back
to the current time. -/
theorem c6_get_item_lenient (s : Store) (id : String) (now : Timestamp) :
    (List.lookup id s = none → DynamoDbRepository.get_item now s id = .ok none) ∧
    (∀ rec, List.lookup id s = some rec →
      ∃ it, DynamoDbRepository.get_item now s id = .ok (some it) ∧
        (List.lookup "id" rec = none → it.id = "") ∧
        (List.lookup "name" rec = none → it.name = "") ∧
        (List.lookup "created_at" rec = none → it.created_at = now) ∧
        (∀ ts, List.lookup "created_at" rec = some ts → parseRfc3339 ts = none →
          it.created_at = now)) := by
  constructor
  · intro h; simp [DynamoDbRepository.get_item, h]
  · intro rec h
    refine ⟨{ id := (List.lookup "id" rec).getD ""
              name := (List.lookup "name" rec).getD ""
              description := List.lookup "description" rec
              created_at := ((List.lookup "created_at" rec).bind parseRfc3339).getD now
              classification := "" },
            by simp [DynamoDbRepository.get_item, h], ?_, ?_, ?_, ?_⟩
    · intro hid; simp [hid]
    · intro hname; simp [hname]
    · intro hca; simp [hca]
    · intro ts hts hparse; simp [hts, hparse]

/-- C6 witness: the claim at a concrete record holding only an unparsable
`created_at`: the read succeeds with `id`/`name` defaulted to the empty
string and `created_at` defaulted to the current time 7. -/
theorem c6_get_item_lenient_witness :
    ∃ it, DynamoDbRepository.get_item 7 [("k", [("created_at", "zz")])] "k" =
        .ok (some it) ∧ it.id = "" ∧ it.name = "" ∧ it.created_at = 7 := by
  obtain ⟨it, hget, hid, hname, _, hbad⟩ :=
    (c6_get_item_lenient [("k", [("created_at", "zz")])] "k" 7).2
      [("created_at", "zz")] rfl
  exact ⟨it, hget, hid rfl, hname rfl, hbad "zz" rfl rfl⟩

/-- C7: on POST /items with a body deserializing to a valid item, when
the store write succeeds but the SQS publish fails, the response is the
500 mapping of the `Sqs` error while the final world still contains the
written record (the store mutation is not rolled back) and the queue is
unchanged; on full success the response is 201 with the created item,
the record is written, and exactly the Created event is appended to the
queue; a validation failure aborts before any store write or publish. -/
theorem c7_create_publish_not_rolled_back (env : Env) (w : World) (content : JsonText)
    (item : Item) (hparse : parseItemBody env content = .ok item)
    (hv : validate_item item = .ok ()) :
    (∀ failure, env.sqsResult = some failure →
      handle_request env ⟨"POST", "/items", .text content⟩ w =
        .ok (error_response ("SQS error: " ++ failure) 500,
             { store := storePut item.id (itemAttributes item) w.store,
               queue := w.queue })) ∧
    (env.sqsResult = none →
      handle_request env ⟨"POST", "/items", .text content⟩ w =
        .ok ({ status := 201, contentType := some "application/json",
               body := some (itemToJson item) },
             { store := storePut item.id (itemAttributes item) w.store,
               queue := w.queue ++ [itemEventToJson ⟨.Created, item, env.now⟩] })) ∧
    (∀ (item' : Item) (e : AppError), validate_item item' = .error e →
      ApiHandler.create_item env item' w = (.error e, w)) := by
  refine ⟨?_, ?_, ?_⟩
  · intro failure hsqs
    unfold handle_request route_result
    dsimp only
    rw [show (("POST" : String) == "GET") = false from rfl,
        show (("POST" : String) == "POST") = true from rfl]
    simp only [Bool.false_and, Bool.true_and, if_false, if_true]
    simp [hparse, ApiHandler.create_item, hv, DynamoDbRepository.create_item,
          hsqs, AppError.display]
  · intro hsqs
    unfold handle_request route_result
    dsimp only
    rw [show (("POST" : String) == "GET") = false from rfl,
        show (("POST" : String) == "POST") = true from rfl]
    simp only [Bool.false_and, Bool.true_and, if_false, if_true]
    simp [hparse, ApiHandler.create_item, hv, DynamoDbRepository.create_item, hsqs]
  · intro item' e hv'
    simp [ApiHandler.create_item, hv']

/-- C7 witness: the claim at the concrete request `{"name": "Widget"}`
under an invocation whose SQS send fails: 500 response, record still in
the table, queue untouched. -/
theorem c7_create_publish_witness :
    handle_request envSqsFail postWidgetReq emptyWorld =
      .ok (error_response "SQS error: SendMessageError" 500,
           { store := storePut "uuid-0" (itemAttributes widgetItem) [], queue := [] }) :=
  (c7_create_publish_not_rolled_back envSqsFail emptyWorld
      (.wellFormed (.obj [("name", .str "Widget")])) widgetItem rfl rfl).1
    "SendMessageError" rfl

/-- C8: the consumer processes a batch sequentially and the first failing
message aborts the whole batch with its error: the batch succeeds exactly
when every message processes successfully; if every message of a prefix
succeeds and the next message fails, the whole batch fails with that
message's error (nothing after it is swallowed); and a message with an
absent body fails with the wrapped `Internal` error. -/
theorem c8_batch_abort (env : Env) :
    (∀ ms : List SqsMessage, handle_event env ms = .ok () ↔
      ∀ m ∈ ms, process_sqs_message env m = .ok ()) ∧
    (∀ (pre post : List SqsMessage) (m : SqsMessage) (e : String),
      (∀ x ∈ pre, process_sqs_message env x = .ok ()) →
      process_sqs_message env m = .error e →
      handle_event env (pre ++ m :: post) = .error e) ∧
    (∀ m : SqsMessage, m.body = none →
      process_sqs_message env m = .error "Internal error: SQS message has no body") := by
  refine ⟨?_, ?_, ?_⟩
  · intro ms
    induction ms with
    | nil => simp [handle_event]
    | cons m rest ih =>
        simp only [handle_event]
        cases hp : process_sqs_message env m with
        | error e => simp [hp]
        | ok u => cases u; simp [hp, ih]
  · intro pre post m e hpre hm
    induction pre with
    | nil => simp [handle_event, hm]
    | cons x xs ih =>
        have hx : process_sqs_message env x = .ok () := hpre x (by simp)
        simp only [List.cons_append, handle_event, hx]
        exact ih (fun y hy => hpre y (by simp [hy]))
  · intro m hm
    simp [process_sqs_message, hm, AppError.display]

/-- C8 witness: a concrete batch whose second message has no body: the
first message (a well-formed Created event) processes, the bodiless
message fails, and the whole batch — including the valid third message —
aborts with that error. -/
theorem c8_batch_abort_witness :
    handle_event envNoFail [sqsOkMessage, sqsNoBodyMessage, sqsOkMessage] =
      .error "Internal error: SQS message has no body" :=
  (c8_batch_abort envNoFail).2.1 [sqsOkMessage] [sqsOkMessage] sqsNoBodyMessage _
    (fun x hx => by simp only [List.mem_singleton] at hx; subst hx; rfl)
    ((c8_batch_abort envNoFail).2.2 sqsNoBodyMessage rfl)

/-- C9 counterexample: deleting a missing id does return 404 without
touching the store or queue, but the body is not exactly
`{"message":"Item with ID missing-id not found"}` — `handle_request`
builds the message from `err.to_string()`, and thiserror's `Display` for
`AppError::NotFound` prefixes "Not found: " (error.rs:17-18). -/
theorem c9_delete_missing_body_counterexample :
    handle_request envNoFail ⟨"DELETE", "/items/missing-id", .empty⟩ emptyWorld =
      .ok (error_response "Not found: Item with ID missing-id not found" 404, emptyWorld) ∧
    (error_response "Not found: Item with ID missing-id not found" 404).body ≠
      some (.obj [("message", .str "Item with ID missing-id not found")]) := by
  refine ⟨rfl, ?_⟩
  simp only [error_response, ne_eq, Option.some.injEq]
  intro h
  injection h with h1
  injection h1 with h2 htail
  injection h2 with hfst hsnd
  injection hsnd with h4
  exact absurd h4 (by decide)

/-- C9 amended: for every DELETE /items/{id} request where no record with
that id exists, the handler returns 404 with body
`{"message":"Not found: Item with ID <id> not found"}` (the claimed text
prefixed by thiserror's "Not found: "), and the world is unchanged — no
store delete and no event publish happen. -/
theorem c9_delete_missing_amended (env : Env) (w : World) (path : String)
    (hpath : rustStartsWith path "/items/" = true)
    (hmissing : List.lookup (String.mk (trimItemsPath path.data)) w.store = none) :
    handle_request env ⟨"DELETE", path, .empty⟩ w =
      .ok (error_response
            ("Not found: Item with ID " ++ String.mk (trimItemsPath path.data) ++ " not found")
            404, w) := by
  unfold handle_request route_result
  dsimp only
  rw [show (("DELETE" : String) == "GET") = false from rfl,
      show (("DELETE" : String) == "POST") = false from rfl,
      show (("DELETE" : String) == "DELETE") = true from rfl]
  simp only [Bool.false_and, Bool.true_and, hpath, if_false, if_true]
  simp [ApiHandler.delete_item, DynamoDbRepository.get_item, hmissing, AppError.display]
  rw [← String.append_assoc, ← String.append_assoc]
  rfl

/-- C9 witness: the amended claim at the concrete path
`/items/missing-id` against the empty table. -/
theorem c9_delete_missing_witness :
    handle_request envNoFail ⟨"DELETE", "/items/missing-id", .empty⟩ emptyWorld =
      .ok (error_response "Not found: Item with ID missing-id not found" 404, emptyWorld) :=
  c9_delete_missing_amended envNoFail emptyWorld "/items/missing-id" rfl rfl

/-- C10 counterexample: `mask_sensitive_data` is not total — for an input
over 4 bytes whose byte index 4 falls inside a multi-byte character, the
byte-range slice `&data[0..4]` (api-handler/src/main.rs:270) panics,
modelled as `none`: "aéé" is 5 bytes and byte 4 splits the final 'é'. -/
theorem c10_mask_panic_counterexample :
    mask_sensitive_data "aéé" = none ∧ rustLen "aéé" = 5 :=
  ⟨rfl, rfl⟩

/-- C10 amended: on inputs of at most 4 bytes `mask_sensitive_data`
returns "****"; on longer inputs whose byte index 4 is a character
boundary it returns the prefix occupying exactly the first 4 bytes
followed by one asterisk per remaining byte — a string of the same byte
length as the input; on longer inputs where byte 4 falls inside a
character it panics.  Lengths are UTF-8 bytes (Rust `String::len`), not
characters. -/
theorem c10_mask_amended (s : String) :
    (rustLen s ≤ 4 → mask_sensitive_data s = some "****") ∧
    (∀ v, rustLen s > 4 → takeUtf8Bytes 4 s.data = some v →
      mask_sensitive_data s =
        some (String.mk v ++ String.mk (List.replicate (rustLen s - 4) '*')) ∧
      v <+: s.data ∧
      (v.map Char.utf8Size).sum = 4 ∧
      rustLen (String.mk v ++ String.mk (List.replicate (rustLen s - 4) '*')) = rustLen s) ∧
    (rustLen s > 4 → takeUtf8Bytes 4 s.data = none → mask_sensitive_data s = none) := by
  refine ⟨?_, ?_, ?_⟩
  · intro h; simp [mask_sensitive_data, h]
  · intro v hlen htake
    have hnot : ¬ rustLen s ≤ 4 := by omega
    refine ⟨by simp [mask_sensitive_data, hnot, htake], takeUtf8Bytes_prefix _ _ _ htake,
            takeUtf8Bytes_sum _ _ _ htake, ?_⟩
    have hsum := takeUtf8Bytes_sum _ _ _ htake
    have hstar : Char.utf8Size '*' = 1 := rfl
    show rustLen (String.mk (v ++ List.replicate (rustLen s - 4) '*')) = rustLen s
    simp only [rustLen] at hlen ⊢
    simp [List.map_replicate, hstar, hsum, List.sum_replicate]
    omega
  · intro hlen htake
    have hnot : ¬ rustLen s ≤ 4 := by omega
    simp [mask_sensitive_data, hnot, htake]

/-- C10 witness: the amended claim at the concrete input "abcdef": six
ASCII bytes, boundary at byte 4, masked to "abcd**". -/
theorem c10_mask_witness :
    mask_sensitive_data "abcdef" = some "abcd**" ∧ rustLen "abcdef" = 6 := by
  have h := (c10_mask_amended "abcdef").2.1 ['a', 'b', 'c', 'd'] (by decide) rfl
  exact ⟨h.1, rfl⟩
